import Mathlib

/-!
Shallow embedding of `src/micropython/stepper/bipolar.py` (class `BipolarStepper`),
a driver for a bipolar stepper motor behind an L298N H-bridge, together with
theorems settling the specification claims about it.

Modelling conventions:
* The 4-bit step state `self._step_state` is a `Nat` (bit operations `&&&`,
  `|||`, `>>>`, `<<<` mirror the Python expressions literally).
* Delays are recorded in milliseconds as `Nat` (the Python code stores the
  same durations as float seconds: 0.003 s = 3 ms, 0.008 s = 8 ms,
  0.016 s = 16 ms, 0.5 s = 500 ms).
* The observable controller state is a `MotorState` record: the four GPIO
  output levels, the stored delay, the stored number of steps per revolution,
  the stored step-state pattern, the stored direction (the code stores the
  bound method `_forward_step`/`_backward_step`; we store the key of
  `_dic_direction` and apply it through `apply_direction`), plus a ghost
  accumulator `elapsed_ms` totalling the time spent in `utime.sleep`, so that
  "incurs no delay" is expressible.
* Python `//` and `%` are floor division and floor modulus: `Int.fdiv` and
  `Int.fmod`.  `range(n)` iterates `max n 0` times, i.e. `Int.toNat n` times.
* `split_steps` can raise `ZeroDivisionError` (from `steps360 // nsplits`
  when `nsplits = 0`), so it is embedded with an `Except` result; the error
  enumeration also carries an `invalidArgument` constructor so that the
  error-handling claim about an explicit invalid-argument failure is statable.
-/

namespace BipolarStepper

/-- The keys of `self._dic_direction`. -/
inductive Direction
  | forward
  | backward
deriving DecidableEq, Repr

/-- Python exceptions relevant to `split_steps`: the `ZeroDivisionError` that
`steps360 // nsplits` raises at `nsplits = 0`, and the explicit invalid-argument
error the specification asks for (never raised by the code). -/
inductive PyError
  | zeroDivisionError
  | invalidArgument
deriving DecidableEq, Repr

/-- `BipolarStepper._forward_step`:
`first_bit = self._step_state & 0b0001`;
`self._step_state = (self._step_state >> 1) | (first_bit << 3)`. -/
def forward_step (s : Nat) : Nat :=
  let first_bit := s &&& 0b0001
  (s >>> 1) ||| (first_bit <<< 3)

/-- `BipolarStepper._backward_step`:
`last_bit = self._step_state & 0b1000`;
`self._step_state = 0b1111 & (self._step_state << 1) | (last_bit >> 3)`
(`&` binds tighter than `|` in Python). -/
def backward_step (s : Nat) : Nat :=
  let last_bit := s &&& 0b1000
  (0b1111 &&& (s <<< 1)) ||| (last_bit >>> 3)

/-- The transition rule stored in `self._next_state`: the value of
`self._dic_direction[direction]`. -/
def apply_direction : Direction → Nat → Nat
  | .forward => forward_step
  | .backward => backward_step

/-- The mutable state of a `BipolarStepper` object, plus the ghost field
`elapsed_ms` recording the total time passed to `utime.sleep`. -/
structure MotorState where
  pin1 : Bool
  pin2 : Bool
  pin3 : Bool
  pin4 : Bool
  delay_ms : Nat
  steps360 : Nat
  step_state : Nat
  direction : Direction
  elapsed_ms : Nat
deriving DecidableEq, Repr

/-- The dictionary `self._speed` followed by the `try/except` of `set_speed`:
a lookup miss (any unknown key) falls back to `self._speed['high']`.
Delays are in milliseconds. -/
def speed_delay_ms (speed : String) : Nat :=
  if speed = "high" then 3
  else if speed = "medium" then 8
  else if speed = "low" then 16
  else if speed = "test" then 500
  else 3

/-- `BipolarStepper.set_speed`: stores the resolved delay; total, never raises. -/
def set_speed (st : MotorState) (speed : String) : MotorState :=
  { st with delay_ms := speed_delay_ms speed }

/-- The dictionary `self._dic_direction` followed by the `try/except` of
`set_direction`: a lookup miss falls back to `self._dic_direction['forward']`. -/
def resolve_direction (direction : String) : Direction :=
  if direction = "forward" then .forward
  else if direction = "backward" then .backward
  else .forward

/-- `BipolarStepper.set_direction`: stores the resolved transition rule;
total, never raises. -/
def set_direction (st : MotorState) (direction : String) : MotorState :=
  { st with direction := resolve_direction direction }

/-- `BipolarStepper._move_motor`: writes the four bits of `_step_state` to the
pins (`pin2 ← bit 3` (A+), `pin1 ← bit 2` (B+), `pin4 ← bit 1` (A-),
`pin3 ← bit 0` (B-); `Pin.value` treats any nonzero integer as high), then
`utime.sleep(self._delay)`. -/
def move_motor (st : MotorState) : MotorState :=
  { st with
    pin2 := st.step_state &&& 0b1000 != 0
    pin1 := st.step_state &&& 0b0100 != 0
    pin4 := st.step_state &&& 0b0010 != 0
    pin3 := st.step_state &&& 0b0001 != 0
    elapsed_ms := st.elapsed_ms + st.delay_ms }

/-- One iteration of the loop body of `next_steps`:
`self._next_state(); self._move_motor()`. -/
def one_step (st : MotorState) : MotorState :=
  move_motor { st with step_state := apply_direction st.direction st.step_state }

/-- `BipolarStepper.next_steps`: `for _ in range(nsteps)` runs the body
`Int.toNat nsteps` times (zero times when `nsteps ≤ 0`). -/
def next_steps (st : MotorState) (nsteps : Int) : MotorState :=
  one_step^[nsteps.toNat] st

/-- The step count computed by `next_angle`: `self.steps360 * angle // 360`,
with Python `//` being floor division. -/
def angle_to_steps (steps360 : Nat) (angle : Int) : Int :=
  Int.fdiv ((steps360 : Int) * angle) 360

/-- `BipolarStepper.next_angle`: `self.next_steps(self.steps360 * angle // 360)`. -/
def next_angle (st : MotorState) (angle : Int) : MotorState :=
  next_steps st (angle_to_steps st.steps360 angle)

/-- `BipolarStepper.sleep`: drives all four pins low; touches nothing else. -/
def sleep (st : MotorState) : MotorState :=
  { st with pin1 := false, pin2 := false, pin3 := false, pin4 := false }

/-- `BipolarStepper.__init__` (pin numbers abstracted away): resolve the speed,
store `steps360`, set `_step_state = 0b1100`, resolve the direction, and end
with `self.sleep()` so the motor starts de-energized. -/
def init_motor (speed : String) (direction : String) (steps360 : Nat) : MotorState :=
  sleep (set_direction (set_speed
    { pin1 := false, pin2 := false, pin3 := false, pin4 := false
      delay_ms := 0, steps360 := steps360, step_state := 0b1100
      direction := Direction.forward, elapsed_ms := 0 } speed) direction)

/-- The loop `for i in range(r): l[-1-i] += 1` of `split_steps`: it increments
`l[len-1], l[len-2], ..., l[len-r]`, i.e. exactly the entries whose index `i`
satisfies `len ≤ i + r`. -/
def bump_last (l : List Int) (r : Nat) : List Int :=
  List.ofFn fun i : Fin l.length =>
    if l.length ≤ (i : Nat) + r then l.get i + 1 else l.get i

/-- `BipolarStepper.split_steps`:
`l = nsplits * [self.steps360 // nsplits]` (for `nsplits = 0` the division
raises `ZeroDivisionError`; for `nsplits < 0` list repetition gives `[]`),
`r = self.steps360 % nsplits`, then `for i in range(r): l[-1-i] += 1`. -/
def split_steps (st : MotorState) (nsplits : Int) : Except PyError (List Int) :=
  if nsplits = 0 then
    .error .zeroDivisionError
  else
    let q := Int.fdiv (st.steps360 : Int) nsplits
    let r := Int.fmod (st.steps360 : Int) nsplits
    .ok (bump_last (List.replicate nsplits.toNat q) r.toNat)

/-- The step states reachable from the initial pattern `0b1100` by any
sequence of forward and backward transitions. -/
inductive Reachable : Nat → Prop
  | init : Reachable 0b1100
  | fwd {s : Nat} : Reachable s → Reachable (forward_step s)
  | bwd {s : Nat} : Reachable s → Reachable (backward_step s)

/-- A 4-bit pattern with exactly two bits set, adjacent in the canonical
4-position cycle (positions `i` and `(i+1) % 4`). -/
def exactly_two_adjacent_bits (s : Nat) : Prop :=
  ((List.range 4).countP fun i => s.testBit i) = 2 ∧
    ∃ i < 4, s = (1 <<< i) ||| (1 <<< ((i + 1) % 4))

instance (s : Nat) : Decidable (exactly_two_adjacent_bits s) := by
  unfold exactly_two_adjacent_bits
  infer_instance

/-- Claim C1: for each direction, applying the transition rule four times to
any 4-bit step-state pattern returns it unchanged (the cycle has length 4). -/
theorem transition_cycle_length_four (d : Direction) (s : Nat) (h : s < 16) :
    apply_direction d (apply_direction d (apply_direction d (apply_direction d s))) = s := by
  cases d <;> (revert s; decide)

/-- Witness for C1 at direction `forward` and the initial pattern `0b1100`. -/
theorem transition_cycle_length_four_witness :
    12 < 16 ∧
      apply_direction .forward (apply_direction .forward
        (apply_direction .forward (apply_direction .forward 12))) = 12 :=
  ⟨by decide, transition_cycle_length_four .forward 12 (by decide)⟩

/-- Claim C2: on any 4-bit step-state pattern, the forward and backward
transitions undo each other in either order. -/
theorem transitions_mutual_inverses (s : Nat) (h : s < 16) :
    forward_step (backward_step s) = s ∧ backward_step (forward_step s) = s := by
  revert s; decide

/-- Witness for C2 at the initial pattern `0b1100`. -/
theorem transitions_mutual_inverses_witness :
    12 < 16 ∧ forward_step (backward_step 12) = 12 ∧ backward_step (forward_step 12) = 12 :=
  ⟨by decide, transitions_mutual_inverses 12 (by decide)⟩

/-- Claim C5: `set_speed` maps high/medium/low/test to 3/8/16/500 ms and any
other name to the high delay of 3 ms; `set_direction` maps forward/backward to
the respective rules and any other name to forward.  Both are total functions
of the state (the `try/except` swallows the dictionary miss), so neither can
raise. -/
theorem policy_tables_and_fallback (st : MotorState) (u v : String)
    (hu1 : u ≠ "high") (hu2 : u ≠ "medium") (hu3 : u ≠ "low") (hu4 : u ≠ "test")
    (hv1 : v ≠ "forward") (hv2 : v ≠ "backward") :
    (set_speed st "high").delay_ms = 3 ∧
    (set_speed st "medium").delay_ms = 8 ∧
    (set_speed st "low").delay_ms = 16 ∧
    (set_speed st "test").delay_ms = 500 ∧
    (set_speed st u).delay_ms = 3 ∧
    (set_direction st "forward").direction = Direction.forward ∧
    (set_direction st "backward").direction = Direction.backward ∧
    (set_direction st v).direction = Direction.forward := by
  refine ⟨show speed_delay_ms "high" = 3 by decide,
    show speed_delay_ms "medium" = 8 by decide,
    show speed_delay_ms "low" = 16 by decide,
    show speed_delay_ms "test" = 500 by decide, ?_,
    show resolve_direction "forward" = .forward by decide,
    show resolve_direction "backward" = .backward by decide, ?_⟩
  · show speed_delay_ms u = 3
    simp [speed_delay_ms, hu1, hu2, hu3, hu4]
  · show resolve_direction v = Direction.forward
    simp [resolve_direction, hv1, hv2]

/-- Witness for C5 at the freshly constructed state and the unknown names
`"turbo"` and `"left"`. -/
theorem policy_tables_and_fallback_witness :
    ("turbo" ≠ "high" ∧ "left" ≠ "forward") ∧
      ((set_speed (init_motor "high" "forward" 200) "turbo").delay_ms = 3 ∧
        (set_direction (init_motor "high" "forward" 200) "left").direction = Direction.forward) :=
  ⟨⟨by decide, by decide⟩,
    ⟨(policy_tables_and_fallback (init_motor "high" "forward" 200) "turbo" "left"
        (by decide) (by decide) (by decide) (by decide) (by decide) (by decide)).2.2.2.2.1,
      (policy_tables_and_fallback (init_motor "high" "forward" 200) "turbo" "left"
        (by decide) (by decide) (by decide) (by decide) (by decide) (by decide)).2.2.2.2.2.2.2⟩⟩

/-- Claim C6: with 200 steps per revolution, `next_angle(90)` converts the
angle to `200 * 90 // 360 = 50` and performs exactly 50 single-step advances. -/
theorem next_angle_ninety_is_fifty_steps (st : MotorState) (h : st.steps360 = 200) :
    angle_to_steps st.steps360 90 = 50 ∧ next_angle st 90 = one_step^[50] st := by
  have hconv : angle_to_steps st.steps360 90 = 50 := by rw [h]; decide
  refine ⟨hconv, ?_⟩
  rw [next_angle, hconv]
  rfl

/-- Witness for C6 at the freshly constructed state with the default 200
steps per revolution. -/
theorem next_angle_ninety_is_fifty_steps_witness :
    (init_motor "high" "forward" 200).steps360 = 200 ∧
      (angle_to_steps (init_motor "high" "forward" 200).steps360 90 = 50 ∧
        next_angle (init_motor "high" "forward" 200) 90 =
          one_step^[50] (init_motor "high" "forward" 200)) :=
  ⟨by decide, next_angle_ninety_is_fifty_steps (init_motor "high" "forward" 200) (by decide)⟩

/-- Claim C9: `sleep` drives all four pin outputs low and leaves every other
component of the state — the step-state pattern, the delay, the direction, the
steps-per-revolution constant, and the elapsed time — unchanged. -/
theorem sleep_deenergizes_and_preserves (st : MotorState) :
    (sleep st).pin1 = false ∧ (sleep st).pin2 = false ∧
    (sleep st).pin3 = false ∧ (sleep st).pin4 = false ∧
    (sleep st).step_state = st.step_state ∧
    (sleep st).delay_ms = st.delay_ms ∧
    (sleep st).direction = st.direction ∧
    (sleep st).steps360 = st.steps360 ∧
    (sleep st).elapsed_ms = st.elapsed_ms :=
  ⟨rfl, rfl, rfl, rfl, rfl, rfl, rfl, rfl, rfl⟩

/-- Claim C10: `next_steps(n)` with `n ≤ 0` is a no-op — `range(n)` is empty,
so no transition fires, no pin is written, no delay elapses, and the whole
state (pins, pattern, delay, direction, elapsed time) is exactly as before;
in particular a negative count behaves like a count of zero. -/
theorem next_steps_nonpositive_noop (st : MotorState) (n : Int) (h : n ≤ 0) :
    next_steps st n = st ∧ next_steps st n = next_steps st 0 := by
  have h0 : n.toNat = 0 := Int.toNat_of_nonpos h
  constructor
  · rw [next_steps, h0]; rfl
  · rw [next_steps, h0]; rfl

/-- Witness for C10 at the freshly constructed state and `n = -1`. -/
theorem next_steps_nonpositive_noop_witness :
    (-1 : Int) ≤ 0 ∧
      (next_steps (init_motor "high" "forward" 200) (-1) = init_motor "high" "forward" 200 ∧
        next_steps (init_motor "high" "forward" 200) (-1) =
          next_steps (init_motor "high" "forward" 200) 0) :=
  ⟨by decide, next_steps_nonpositive_noop (init_motor "high" "forward" 200) (-1) (by decide)⟩

/-- Helper: every reachable step state is one of the four rotations of the
initial pattern `0b1100`, namely `1100`, `0110`, `0011`, `1001`. -/
theorem reachable_in_cycle (s : Nat) (h : Reachable s) :
    s = 12 ∨ s = 6 ∨ s = 3 ∨ s = 9 := by
  induction h with
  | init => left; rfl
  | fwd _ ih => rcases ih with h | h | h | h <;> subst h <;> decide
  | bwd _ ih => rcases ih with h | h | h | h <;> subst h <;> decide

/-- Claim C8: every step state reachable from the initial pattern by forward
and backward transitions has exactly two bits set, adjacent in the canonical
4-position cycle, and the reachable set is exactly the four canonical phases
`1100`, `0110`, `0011`, `1001`. -/
theorem reachable_exactly_canonical_phases :
    (∀ s, Reachable s → (s = 12 ∨ s = 6 ∨ s = 3 ∨ s = 9) ∧ exactly_two_adjacent_bits s) ∧
      Reachable 12 ∧ Reachable 6 ∧ Reachable 3 ∧ Reachable 9 := by
  refine ⟨fun s h => ⟨reachable_in_cycle s h, ?_⟩, .init, ?_, ?_, ?_⟩
  · rcases reachable_in_cycle s h with h | h | h | h <;> subst h <;> decide
  · exact .fwd .init
  · exact .fwd (.fwd .init)
  · exact .bwd .init

/-- Claim C7 counterexample: at `angle = -1` with 200 steps per revolution the
code computes `200 * (-1) // 360 = -1` (Python floor division), whereas
integer division truncating toward zero gives `0`; the claimed conversion rule
disagrees with the code. -/
theorem angle_conversion_not_truncation :
    angle_to_steps 200 (-1) = -1 ∧ Int.tdiv ((200 : Int) * (-1)) 360 = 0 ∧
      angle_to_steps 200 (-1) ≠ Int.tdiv ((200 : Int) * (-1)) 360 := by
  decide

/-- Claim C7 as amended: `next_angle(degrees)` converts the angle with floor
division rounding toward negative infinity — the computed step count `q` is
characterized by `360 * q ≤ steps360 * degrees < 360 * (q + 1)` — and
delegates that count to `next_steps`. -/
theorem next_angle_floor_conversion (st : MotorState) (angle : Int) :
    next_angle st angle = next_steps st (angle_to_steps st.steps360 angle) ∧
      360 * angle_to_steps st.steps360 angle ≤ (st.steps360 : Int) * angle ∧
      (st.steps360 : Int) * angle < 360 * (angle_to_steps st.steps360 angle + 1) := by
  refine ⟨rfl, ?_, ?_⟩ <;>
  · rw [angle_to_steps, Int.fdiv_eq_ediv ((st.steps360 : Int) * angle) (by decide)]
    omega

/-- Helper: the increment loop applied to a constant list of length `N`, run
`R ≤ N` times from the end, increments exactly the last `R` entries. -/
theorem bump_last_replicate (N R : Nat) (q : Int) (hR : R ≤ N) :
    bump_last (List.replicate N q) R =
      List.replicate (N - R) q ++ List.replicate R (q + 1) := by
  apply List.ext_getElem
  · simp only [bump_last, List.length_ofFn, List.length_replicate, List.length_append]
    omega
  · intro i h1 h2
    simp only [bump_last, List.length_ofFn, List.length_replicate] at h1
    simp only [bump_last, List.getElem_ofFn, Fin.coe_cast, List.get_eq_getElem,
      List.getElem_replicate, List.length_replicate]
    by_cases hi : i < N - R
    · rw [List.getElem_append_left (by simpa using hi), List.getElem_replicate,
        if_neg (by omega)]
    · rw [List.getElem_append_right (by simpa using hi), List.getElem_replicate,
        if_pos (by omega)]

/-- Helper: the increment loop does nothing to the empty list. -/
theorem bump_last_nil (r : Nat) : bump_last [] r = [] := by
  simp [bump_last]

/-- Claim C3: for positive `nsplits`, `split_steps` succeeds with a list of
exactly `nsplits` entries summing to `steps360`, each entry equal to
`steps360 // nsplits` or that value plus one, and the remainder
`r = steps360 % nsplits` distributed as `+1` over exactly the last `r`
positions. -/
theorem split_steps_partition (st : MotorState) (n : Int) (hn : 0 < n) :
    ∃ l, split_steps st n = Except.ok l ∧
      l.length = n.toNat ∧
      l.sum = (st.steps360 : Int) ∧
      (∀ x ∈ l, x = Int.fdiv (st.steps360 : Int) n ∨ x = Int.fdiv (st.steps360 : Int) n + 1) ∧
      l = List.replicate (n.toNat - (Int.fmod (st.steps360 : Int) n).toNat)
            (Int.fdiv (st.steps360 : Int) n) ++
          List.replicate (Int.fmod (st.steps360 : Int) n).toNat
            (Int.fdiv (st.steps360 : Int) n + 1) := by
  have hn0 : n ≠ 0 := by omega
  set s : Int := (st.steps360 : Int) with hs
  set q : Int := Int.fdiv s n with hq
  set r : Int := Int.fmod s n with hr
  have hr_nonneg : 0 ≤ r := by
    rw [hr, Int.fmod_eq_emod _ (le_of_lt hn)]
    exact Int.emod_nonneg s hn0
  have hr_lt : r < n := by
    rw [hr, Int.fmod_eq_emod _ (le_of_lt hn)]
    exact Int.emod_lt_of_pos s hn
  have hid : n * q + r = s := by rw [hq, hr]; exact Int.fdiv_add_fmod s n
  have hRN : r.toNat ≤ n.toNat := by omega
  have hcastN : ((n.toNat : Int)) = n := Int.toNat_of_nonneg (le_of_lt hn)
  have hcastR : ((r.toNat : Int)) = r := Int.toNat_of_nonneg hr_nonneg
  have hsplit : split_steps st n = .ok (bump_last (List.replicate n.toNat q) r.toNat) := by
    rw [split_steps, if_neg hn0]
  have hstruct := bump_last_replicate n.toNat r.toNat q hRN
  refine ⟨_, hsplit, ?_, ?_, ?_, hstruct⟩
  · rw [hstruct]
    simp only [List.length_append, List.length_replicate]
    omega
  · rw [hstruct, List.sum_append, List.sum_replicate, List.sum_replicate,
      nsmul_eq_mul, nsmul_eq_mul, Nat.cast_sub hRN, hcastN, hcastR]
    linear_combination hid
  · intro x hx
    rw [hstruct] at hx
    rcases List.mem_append.1 hx with h | h
    · exact Or.inl (List.eq_of_mem_replicate h)
    · exact Or.inr (List.eq_of_mem_replicate h)

/-- Witness for C3 at the freshly constructed state (`steps360 = 200`) and
`nsplits = 7`: `200 // 7 = 28`, `200 % 7 = 4`, so three entries of 28 followed
by four entries of 29. -/
theorem split_steps_partition_witness :
    (0 : Int) < 7 ∧
      ∃ l, split_steps (init_motor "high" "forward" 200) 7 = Except.ok l ∧
        l.length = (7 : Int).toNat ∧
        l.sum = ((init_motor "high" "forward" 200).steps360 : Int) ∧
        (∀ x ∈ l,
          x = Int.fdiv ((init_motor "high" "forward" 200).steps360 : Int) 7 ∨
          x = Int.fdiv ((init_motor "high" "forward" 200).steps360 : Int) 7 + 1) ∧
        l = List.replicate ((7 : Int).toNat -
              (Int.fmod ((init_motor "high" "forward" 200).steps360 : Int) 7).toNat)
              (Int.fdiv ((init_motor "high" "forward" 200).steps360 : Int) 7) ++
            List.replicate (Int.fmod ((init_motor "high" "forward" 200).steps360 : Int) 7).toNat
              (Int.fdiv ((init_motor "high" "forward" 200).steps360 : Int) 7 + 1) :=
  ⟨by decide, split_steps_partition (init_motor "high" "forward" 200) 7 (by decide)⟩

/-- Helper: for a negative split count, Python list repetition produces the
empty list (`nsplits * [q] == []`) and `range(r)` with `r ≤ 0` runs zero
times, so `split_steps` succeeds with the empty list. -/
theorem split_steps_of_neg (st : MotorState) (n : Int) (h : n < 0) :
    split_steps st n = .ok [] := by
  have h0 : ¬ n = 0 := by omega
  have ht : n.toNat = 0 := Int.toNat_of_nonpos (le_of_lt h)
  simp only [split_steps, if_neg h0, ht, List.replicate_zero, bump_last_nil]

/-- Claim C4 counterexample: `split_steps` does not fail with an explicit
invalid-argument error on non-positive `nsplits`.  At `nsplits = 0` it raises
the bare `ZeroDivisionError` of `steps360 // 0` (not an invalid-argument
error), and at `nsplits = -1` it does not fail at all: it silently returns
the malformed empty list (length 0, sum 0 ≠ 200). -/
theorem split_steps_nonpositive_counterexample :
    split_steps (init_motor "high" "forward" 200) 0 = .error .zeroDivisionError ∧
      split_steps (init_motor "high" "forward" 200) 0 ≠ .error .invalidArgument ∧
      split_steps (init_motor "high" "forward" 200) (-1) = .ok [] := by
  refine ⟨rfl, ?_, split_steps_of_neg _ _ (by decide)⟩
  intro heq
  rw [show split_steps (init_motor "high" "forward" 200) 0
      = .error .zeroDivisionError from rfl] at heq
  exact absurd (Except.error.inj heq) (by decide)

/-- Claim C4 as amended: on non-positive `nsplits` the code never produces an
explicit invalid-argument error: at `nsplits = 0` the division
`steps360 // nsplits` raises a bare `ZeroDivisionError`, and for negative
`nsplits` no error is raised at all — the call returns the empty list. -/
theorem split_steps_nonpositive_behavior (st : MotorState) (n : Int) (h : n ≤ 0) :
    split_steps st n =
      if n = 0 then .error .zeroDivisionError else .ok [] := by
  by_cases h0 : n = 0
  · rw [if_pos h0, h0]
    rfl
  · rw [if_neg h0]
    exact split_steps_of_neg st n (by omega)

/-- Witness for the amended C4 at the freshly constructed state and
`nsplits = -1`. -/
theorem split_steps_nonpositive_behavior_witness :
    (-1 : Int) ≤ 0 ∧
      split_steps (init_motor "high" "forward" 200) (-1) =
        if (-1 : Int) = 0 then .error .zeroDivisionError else .ok [] :=
  ⟨by decide, split_steps_nonpositive_behavior (init_motor "high" "forward" 200) (-1) (by decide)⟩

end BipolarStepper
